import Mathlib

/-!
# Verification of the mayastor control-plane specification

A shallow embedding, in Lean 4, of the parts of the mayastor control plane
that the specification talks about: the etcd-backed store with lease-guarded
conditional writes (`src/common/src/store/etcd.rs`), the store watcher, the
healthy-children scheduler and the nexus reconcilers
(`src/control-plane/agents/core/src/nexus/scheduling.rs`,
`src/control-plane/agents/core/src/core/reconciler/nexus/mod.rs`), the pool
spec transaction (`src/common/src/types/v0/store/pool.rs`), the REST error
mapping and channel parsing (`src/common/src/types/mod.rs`).

Pure data is embedded directly; effectful functions are embedded as pure
functions from their inputs (including the results of the calls they make)
to the externally visible actions they take.
-/

set_option autoImplicit false

/-! ## Store errors and etcd state (src/common/src/store/etcd.rs) -/

/-- The `StoreError` variants relevant to the conditional-write paths:
`FailedLock` is the lost-leadership error, `NotReady` is returned by
`lease_lock()` when the lease is not active. -/
inductive StoreErr where
  | failedLock
  | notReady
  deriving DecidableEq, Repr

/-- A model of the etcd keyspace: key-value bindings plus, for each key, the
lease attached to it (`none` when the key is absent or holds no lease).
`Compare::lease(k, Equal, id)` succeeds exactly when `leaseOf k = some id`. -/
structure EtcdState where
  kvs : List (String × String)
  leases : List (String × Int)
  deriving DecidableEq, Repr

/-- Lease attached to a key, as tested by the etcd transaction compare. -/
def EtcdState.leaseOf (s : EtcdState) (k : String) : Option Int :=
  (s.leases.find? (fun p => p.1 == k)).map (fun p => p.2)

/-- The effect of an etcd `put` on the keyspace. -/
def EtcdState.putKey (s : EtcdState) (k v : String) : EtcdState :=
  { s with kvs := (k, v) :: s.kvs.filter (fun p => p.1 != k) }

/-- The effect of an etcd `delete` on the keyspace. -/
def EtcdState.deleteKey (s : EtcdState) (k : String) : EtcdState :=
  { s with kvs := s.kvs.filter (fun p => p.1 != k) }

/-- Embedding of `Etcd::put_kv`.  `lease_lock` is the result of
`self.lease_lock()` (`ok none` when no lease-lock pair is configured, `ok
(some (lease_id, lock_key))` when the pair is active, `error` when the lease
is configured but not active).  With an active pair the write runs as a
transaction: the compare `lease(lock_key) == lease_id` guards the put, and a
failed compare yields `StoreError::FailedLock` with no write performed.
Without a pair the put is unconditional. -/
def put_kv (s : EtcdState) (lease_lock : Except StoreErr (Option (Int × String)))
    (key value : String) : Except StoreErr EtcdState :=
  match lease_lock with
  | .error e => .error e
  | .ok (some (lease_id, lock_key)) =>
      if s.leaseOf lock_key = some lease_id then
        .ok (s.putKey key value)
      else
        .error .failedLock
  | .ok none => .ok (s.putKey key value)

/-- Embedding of `Etcd::delete_kv`: same transaction structure as `put_kv`,
with a delete as the guarded operation. -/
def delete_kv (s : EtcdState) (lease_lock : Except StoreErr (Option (Int × String)))
    (key : String) : Except StoreErr EtcdState :=
  match lease_lock with
  | .error e => .error e
  | .ok (some (lease_id, lock_key)) =>
      if s.leaseOf lock_key = some lease_id then
        .ok (s.deleteKey key)
      else
        .error .failedLock
  | .ok none => .ok (s.deleteKey key)

/-- Embedding of `Etcd::put_obj`: identical transaction structure to
`put_kv`, the key and value coming from the `StorableObject`. -/
def put_obj (s : EtcdState) (lease_lock : Except StoreErr (Option (Int × String)))
    (obj_key obj_value : String) : Except StoreErr EtcdState :=
  match lease_lock with
  | .error e => .error e
  | .ok (some (lease_id, lock_key)) =>
      if s.leaseOf lock_key = some lease_id then
        .ok (s.putKey obj_key obj_value)
      else
        .error .failedLock
  | .ok none => .ok (s.putKey obj_key obj_value)

/-! ## The store watcher (src/common/src/store/etcd.rs, `fn watch`) -/

/-- A raw etcd watch event as seen by the watcher loop.
`put none` is a Put event whose `kv()` is absent (skipped by the loop);
`put (some (k, some v))` is a Put whose value deserialises to `v`;
`put (some (k, none))` is a Put whose value fails to deserialise. -/
inductive RawEvent where
  | put (kv : Option (String × Option String))
  | delete
  deriving DecidableEq, Repr

/-- One result of `stream.message()`: an error, a cancelled stream
(`Ok(None)`), or a watch response carrying a batch of events. -/
inductive StreamMsg where
  | msgErr
  | cancelled
  | response (events : List RawEvent)
  deriving DecidableEq, Repr

/-- An item forwarded to the watch subscriber over the channel:
`Ok(WatchEvent::Put(k, v))`, `Err(deserialise error)`, or
`Ok(WatchEvent::Delete)`. -/
inductive SentItem where
  | putOk (key value : String)
  | putErr
  | delete
  deriving DecidableEq, Repr

/-- The inner event loop of `watch`: processes one response's events in
order, forwarding each Put, and on a Delete forwards `WatchEvent::Delete`
and stops (second component `false` means the watcher task returns). -/
def processEvents : List RawEvent → List SentItem × Bool
  | [] => ([], true)
  | .put none :: evs => processEvents evs
  | .put (some (k, some v)) :: evs =>
      let r := processEvents evs
      (.putOk k v :: r.1, r.2)
  | .put (some (_, none)) :: evs =>
      let r := processEvents evs
      (.putErr :: r.1, r.2)
  | .delete :: _ => ([.delete], false)

/-- The watcher loop of `watch`: reads stream messages until the stream
errors, is cancelled, or a Delete event is processed; returns the sequence
of items forwarded to the subscriber. -/
def watchRun : List StreamMsg → List SentItem
  | [] => []
  | .msgErr :: _ => []
  | .cancelled :: _ => []
  | .response evs :: rest =>
      let r := processEvents evs
      if r.2 then r.1 ++ watchRun rest else r.1

/-- `true` when no forwarded item follows a `delete` in the list: the empty
list qualifies, a `delete` must be final, and other items are skipped. -/
def deleteTerminal : List SentItem → Bool
  | [] => true
  | .delete :: rest => rest.isEmpty
  | .putOk _ _ :: rest => deleteTerminal rest
  | .putErr :: rest => deleteTerminal rest

/-! ## Common status types -/

/-- Modelled from the spec: node status in the node registry,
`status ∈ {Online, Offline, Unknown}` (§4.5); the type itself lives outside
the sources in scope. -/
inductive NodeStatus where
  | Unknown
  | Online
  | Offline
  deriving DecidableEq, Repr

/-- `NodeWrapper::is_online`: the node status is `Online`. -/
def NodeStatus.is_online : NodeStatus → Bool
  | .Online => true
  | _ => false

/-- Modelled from the spec: observed nexus status,
`NexusStatus ∈ {Unknown, Online, Degraded, Faulted}` (§3); the enum itself
lives outside the sources in scope. -/
inductive NexusStatus where
  | Unknown
  | Online
  | Degraded
  | Faulted
  deriving DecidableEq, Repr

/-- `ChildState` (src/common/src/types/v0/message_bus/child.rs). -/
inductive ChildState where
  | Unknown
  | Online
  | Degraded
  | Faulted
  deriving DecidableEq, Repr

/-- `ChildState::faulted` (child.rs): the child is `Faulted`. -/
def ChildState.faulted : ChildState → Bool
  | .Faulted => true
  | _ => false

/-- `Child` (child.rs): an observed nexus child. -/
structure Child where
  uri : String
  state : ChildState
  rebuild_progress : Option Nat
  deriving DecidableEq, Repr

/-- Observed nexus state as used by the reconcilers: its status and its
child vector (further fields are not consulted by the embedded code). -/
structure NexusState where
  status : NexusStatus
  children : List Child
  deriving DecidableEq, Repr

/-- `NexusChild` (store nexus types): a child of a nexus spec, either a
replica (uuid plus uri) or a bare uri. -/
inductive NexusChild where
  | Replica (uuid : String) (uri : String)
  | Uri (uri : String)
  deriving DecidableEq, Repr

/-- `NexusChild::uri`. -/
def NexusChild.uri : NexusChild → String
  | .Replica _ u => u
  | .Uri u => u

/-- A call to `remove_nexus_child_by_uri(registry, state, uri, destroy,
mode)` as issued by a reconciler: the child uri and the destroy flag. -/
structure RemoveCall where
  uri : String
  destroy : Bool
  deriving DecidableEq, Repr

/-! ## Nexus-info and the healthy-children scheduler
(src/control-plane/agents/core/src/nexus/scheduling.rs) -/

/-- Modelled from the spec: one per-replica health entry of the persisted
nexus-info record (§3: "per-replica health entries"). -/
structure ChildInfo where
  uuid : String
  healthy : Bool
  deriving DecidableEq, Repr

/-- Modelled from the spec: the persisted nexus-info record, written by the
data plane — `clean_shutdown: bool` plus per-replica health entries (§3);
the struct itself lives outside the sources in scope. -/
structure NexusInfo where
  clean_shutdown : Bool
  children : List ChildInfo
  deriving DecidableEq, Repr

/-- Modelled from the spec: `no_healthy_replicas()` holds when the record
carries no healthy replica entry (§4.6 step 5). -/
def NexusInfo.no_healthy_replicas (info : NexusInfo) : Bool :=
  info.children.all (fun c => !c.healthy)

/-- A candidate replica item produced by the scheduler's builder: the
replica spec uuid (`item.spec().uuid`; the remaining fields feed only
`make_replica_accessible`, which is a parameter of the embedding). -/
structure ChildItem where
  uuid : String
  deriving DecidableEq, Repr

/-- `HealthyChildItems`: the scheduler's verdict, either `One` (bring the
nexus up with a single child) or `All` (safe to assemble with all
candidates), each carrying the nexus-info and the candidate list. -/
inductive HealthyChildItems where
  | One (info : Option NexusInfo) (candidates : List ChildItem)
  | All (info : Option NexusInfo) (candidates : List ChildItem)
  deriving DecidableEq, Repr

/-- `HealthyChildItems::candidates`. -/
def HealthyChildItems.candidates : HealthyChildItems → List ChildItem
  | .One _ c => c
  | .All _ c => c

/-- `HealthyChildItems::nexus_info`. -/
def HealthyChildItems.nexus_info : HealthyChildItems → Option NexusInfo
  | .One i _ => i
  | .All i _ => i

/-- Embedding of `get_healthy_children` (scheduling.rs).  `info` is
`builder.context().nexus_info()` and `candidates` is `builder.collect()`,
the filtered candidate list. -/
def get_healthy_children (info : Option NexusInfo) (candidates : List ChildItem) :
    HealthyChildItems :=
  match info with
  | some info_inner =>
      if !info_inner.clean_shutdown then
        .One (some info_inner) candidates
      else
        .All (some info_inner) candidates
  | none => .All none candidates

/-! ## Nexus reconcilers
(src/control-plane/agents/core/src/core/reconciler/nexus/mod.rs) -/

/-- Embedding of `faulted_children_remover`: given the observed nexus state,
the list of `remove_nexus_child_by_uri` calls it issues.  Faulted children
are removed only from a Degraded nexus with more than one child, each with
the destroy flag set. -/
def faulted_children_remover (nexus_state : NexusState) : List RemoveCall :=
  if nexus_state.status = NexusStatus.Degraded ∧ nexus_state.children.length > 1 then
    (nexus_state.children.filter (fun c => c.state.faulted)).map
      (fun c => { uri := c.uri, destroy := true })
  else
    []

/-- Embedding of `unknown_children_remover`: given the spec children and the
observed nexus state, the list of `remove_nexus_child_by_uri` calls it
issues — one per observed child whose uri matches no spec child, each with
the destroy flag cleared. -/
def unknown_children_remover (spec_children : List NexusChild)
    (nexus_state : NexusState) : List RemoveCall :=
  ((nexus_state.children.filter
      (fun c => !(spec_children.any (fun s => s.uri == c.uri)))).map
    (fun c => { uri := c.uri, destroy := false }))

/-- The accessible replicas assembled by `missing_nexus_recreate`'s loop
over `children.candidates()`: each candidate for which
`make_replica_accessible` succeeds (`access`) becomes a
`NexusChild::Replica` of its uuid and the returned uri; failures are logged
and skipped. -/
def accessible_replicas (access : ChildItem → Option String)
    (candidates : List ChildItem) : List NexusChild :=
  candidates.filterMap (fun item => (access item).map (fun u => .Replica item.uuid u))

/-- The child list the recreate step puts into the `CreateNexus` request:
the first accessible replica for a `One` verdict, all of them for `All`
(reconciler mod.rs, the match on `children`). -/
def select_children (children : HealthyChildItems) (nexus_replicas : List NexusChild) :
    List NexusChild :=
  match children with
  | .One _ _ => nexus_replicas.head?.toList
  | .All _ _ => nexus_replicas

/-- Externally visible outcome of one `missing_nexus_recreate` pass. -/
inductive RecreateAction where
  | nexusPresent
  | nodeNotOnline
  | noHealthyReplicas
  | retryLater
  | createIssued (request_children : List NexusChild)
  deriving DecidableEq, Repr

/-- Embedding of `missing_nexus_recreate`.  `observed` tells whether
`registry.get_nexus` succeeded (the nexus is present in observed state);
`node` is the result of `get_node_wrapper` together with the node's status
(`none` when the node is unknown); `children` is the scheduler verdict from
`get_healthy_nexus_children`; `access` is the outcome of
`make_replica_accessible` per candidate. -/
def missing_nexus_recreate (observed : Bool) (node : Option NodeStatus)
    (children : HealthyChildItems) (access : ChildItem → Option String) :
    RecreateAction :=
  if observed then .nexusPresent
  else
    match node with
    | none => .nodeNotOnline
    | some status =>
      if !status.is_online then .nodeNotOnline
      else
        let nexus_replicas := accessible_replicas access children.candidates
        let new_children := select_children children nexus_replicas
        if new_children.isEmpty then
          match children.nexus_info with
          | some info =>
              if info.no_healthy_replicas then .noHealthyReplicas else .retryLater
          | none => .retryLater
        else
          .createIssued new_children

/-! ## Pool spec transaction (src/common/src/types/v0/store/pool.rs) -/

/-- Modelled from the spec: `message_bus::PoolStatus`, the `Created`
sub-status of a pool (S1: `Created(Online)`); the enum itself lives outside
the sources in scope. -/
inductive PoolStatus where
  | Unknown
  | Online
  | Degraded
  | Faulted
  deriving DecidableEq, Repr

/-- Modelled from the spec: the common `SpecStatus` envelope,
`{Creating, Created(sub), Deleting, Deleted}` (§3); the generic type itself
lives outside the sources in scope. -/
inductive SpecStatus (T : Type) where
  | Creating
  | Created (sub : T)
  | Deleting
  | Deleted
  deriving DecidableEq, Repr

/-- `PoolOperation` (pool.rs). -/
inductive PoolOperation where
  | Create
  | Destroy
  deriving DecidableEq, Repr

/-- `PoolOperationState` (pool.rs): the record of the operation in progress
and its result. -/
structure PoolOperationState where
  operation : PoolOperation
  result : Option Bool
  deriving DecidableEq, Repr

/-- `PoolSpec` (pool.rs).  `PoolLabel` (a string map) is embedded as an
association list; the `sequencer` field is runtime-only (`serde(skip)`) and
is omitted. -/
structure PoolSpec where
  node : String
  id : String
  disks : List String
  status : SpecStatus PoolStatus
  labels : Option (List (String × String))
  operation : Option PoolOperationState
  deriving DecidableEq, Repr

/-- `SpecTransaction::clear_op` for `PoolSpec`. -/
def PoolSpec.clear_op (s : PoolSpec) : PoolSpec :=
  { s with operation := none }

/-- `SpecTransaction::commit_op` for `PoolSpec`: a pending `Destroy` sets the
status to `Deleted`, a pending `Create` sets it to `Created(Online)`; the
pending operation is then cleared. -/
def PoolSpec.commit_op (s : PoolSpec) : PoolSpec :=
  let s' :=
    match s.operation with
    | some op =>
        match op.operation with
        | .Destroy => { s with status := SpecStatus.Deleted }
        | .Create => { s with status := SpecStatus.Created PoolStatus.Online }
    | none => s
  s'.clear_op

/-- `message_bus::PoolState` with the fields constructed in pool.rs
(`From<&PoolSpec> for message_bus::PoolState`): node, id, disks, status,
capacity, used. -/
structure MBusPoolState where
  node : String
  id : String
  disks : List String
  status : PoolStatus
  capacity : Nat
  used : Nat
  deriving DecidableEq, Repr

/-- `PartialEq<message_bus::PoolState> for PoolSpec` (pool.rs lines
182-186): `self.node == other.node`. -/
def PoolSpec.eqPoolState (s : PoolSpec) (other : MBusPoolState) : Bool :=
  s.node == other.node

/-! ## REST error mapping (src/common/src/types/mod.rs,
`From<ReplyError> for RestError<RestJsonError>`) -/

/-- `ReplyErrorKind`: the error taxonomy carried by every `ReplyError`. -/
inductive ReplyErrorKind where
  | WithMessage
  | DeserializeReq
  | Internal
  | Timeout
  | InvalidArgument
  | DeadlineExceeded
  | NotFound
  | AlreadyExists
  | PermissionDenied
  | ResourceExhausted
  | FailedPrecondition
  | Aborted
  | OutOfRange
  | Unimplemented
  | Unavailable
  | Unauthenticated
  | Unauthorized
  | Conflict
  | FailedPersist
  | AlreadyShared
  | NotShared
  | NotPublished
  | AlreadyPublished
  | Deleting
  | ReplicaCountAchieved
  | ReplicaChangeCount
  | ReplicaIncrease
  | VolumeNoReplicas
  | InUse
  | ReplicaCreateNumber
  deriving DecidableEq, Repr

/-- The `StatusCode` component of `From<ReplyError> for RestError`, as the
numeric HTTP status (INTERNAL_SERVER_ERROR = 500, BAD_REQUEST = 400,
REQUEST_TIMEOUT = 408, GATEWAY_TIMEOUT = 504, NOT_FOUND = 404,
UNPROCESSABLE_ENTITY = 422, UNAUTHORIZED = 401, INSUFFICIENT_STORAGE = 507,
PRECONDITION_FAILED = 412, SERVICE_UNAVAILABLE = 503, RANGE_NOT_SATISFIABLE
= 416, NOT_IMPLEMENTED = 501, CONFLICT = 409). -/
def rest_error_status : ReplyErrorKind → Nat
  | .WithMessage => 500
  | .DeserializeReq => 400
  | .Internal => 500
  | .Timeout => 408
  | .InvalidArgument => 400
  | .DeadlineExceeded => 504
  | .NotFound => 404
  | .AlreadyExists => 422
  | .PermissionDenied => 401
  | .ResourceExhausted => 507
  | .FailedPrecondition => 412
  | .Aborted => 503
  | .OutOfRange => 416
  | .Unimplemented => 501
  | .Unavailable => 503
  | .Unauthenticated => 401
  | .Unauthorized => 401
  | .Conflict => 409
  | .FailedPersist => 507
  | .AlreadyShared => 412
  | .NotShared => 412
  | .NotPublished => 412
  | .AlreadyPublished => 412
  | .Deleting => 409
  | .ReplicaCountAchieved => 412
  | .ReplicaChangeCount => 412
  | .ReplicaIncrease => 412
  | .VolumeNoReplicas => 412
  | .InUse => 409
  | .ReplicaCreateNumber => 412

/-! ## Channel parsing (src/common/src/types/mod.rs, `FromStr for Channel`) -/

/-- Outcome of `Channel::from_str`: a parsed channel, a `strum` parse
error, or a panic (out-of-bounds string slice). -/
inductive ParseOutcome (α : Type) where
  | panicked
  | ok (value : α)
  | err
  deriving DecidableEq, Repr

/-- Embedding of `FromStr for Channel`, over strings as char lists (`'/'`
is a single byte, so byte indexing and char indexing agree on the slice
boundary used here).  `source.split('/').next()` always yields the first
segment, i.e. the longest `'/'`-free prefix; the slice
`source[version.len() + 1 ..]` panics when `version.len() + 1` exceeds the
length of `source`.  `parseChannelVs` stands for the derived `strum` parse
of `ChannelVs`. -/
def channel_from_str {α : Type} (parseChannelVs : List Char → Option α)
    (source : List Char) : ParseOutcome α :=
  let version := source.takeWhile (fun c => c != '/')
  if version.length + 1 ≤ source.length then
    match parseChannelVs (source.drop (version.length + 1)) with
    | some c => .ok c
    | none => .err
  else
    .panicked

/-! # Theorems -/

/-! ## C7 — REST status mapping -/

/-- C7: the REST boundary maps `NotFound → 404`, `AlreadyExists → 422`,
`FailedPrecondition → 412`, `Conflict → 409`, `DeadlineExceeded → 504`,
`Unavailable → 503` and `ResourceExhausted → 507`. -/
theorem rest_error_status_table :
    rest_error_status .NotFound = 404 ∧
    rest_error_status .AlreadyExists = 422 ∧
    rest_error_status .FailedPrecondition = 412 ∧
    rest_error_status .Conflict = 409 ∧
    rest_error_status .DeadlineExceeded = 504 ∧
    rest_error_status .Unavailable = 503 ∧
    rest_error_status .ResourceExhausted = 507 := by
  decide

/-! ## C10 — PoolSpec equality with observed pool state -/

/-- C10: a `PoolSpec` compares equal to an observed `message_bus::PoolState`
exactly when their node ids are equal; the comparison is invariant under
changing every other field of the observed state. -/
theorem poolspec_eq_poolstate_node_only :
    (∀ (s : PoolSpec) (st : MBusPoolState),
        s.eqPoolState st = true ↔ s.node = st.node) ∧
    (∀ (s : PoolSpec) (st st' : MBusPoolState), st.node = st'.node →
        s.eqPoolState st = s.eqPoolState st') := by
  constructor
  · intro s st
    simp [PoolSpec.eqPoolState]
  · intro s st st' h
    simp [PoolSpec.eqPoolState, h]

/-- Witness for `poolspec_eq_poolstate_node_only` at concrete inputs. -/
theorem poolspec_eq_poolstate_node_only_witness :
    (PoolSpec.eqPoolState
        { node := "n0", id := "p0", disks := [], status := SpecStatus.Creating,
          labels := none, operation := none }
        { node := "n0", id := "other", disks := ["d"], status := PoolStatus.Faulted,
          capacity := 100, used := 7 } = true) := by
  exact (poolspec_eq_poolstate_node_only.1
    { node := "n0", id := "p0", disks := [], status := SpecStatus.Creating,
      labels := none, operation := none }
    { node := "n0", id := "other", disks := ["d"], status := PoolStatus.Faulted,
      capacity := 100, used := 7 }).mpr rfl

/-! ## C6 — Pool spec commit -/

/-- C6: committing a pending `Create` on a pool spec sets the status to
`Created(Online)` and clears the pending operation, leaving node, id, disks
and labels unchanged; committing a pending `Destroy` sets the status to
`Deleted` and likewise clears the operation. -/
theorem poolspec_commit_op_spec (s : PoolSpec) (r : Option Bool) :
    (s.operation = some { operation := PoolOperation.Create, result := r } →
        s.commit_op = { s with status := SpecStatus.Created PoolStatus.Online,
                               operation := none }) ∧
    (s.operation = some { operation := PoolOperation.Destroy, result := r } →
        s.commit_op = { s with status := SpecStatus.Deleted, operation := none }) := by
  constructor
  · intro h
    simp [PoolSpec.commit_op, h, PoolSpec.clear_op]
  · intro h
    simp [PoolSpec.commit_op, h, PoolSpec.clear_op]

/-- Witness for `poolspec_commit_op_spec`: a concrete pool spec with a
pending `Create` commits to `Created(Online)` with the operation cleared. -/
theorem poolspec_commit_op_spec_witness :
    PoolSpec.commit_op
        { node := "n0", id := "p0", disks := ["aio:///dev/null"],
          status := SpecStatus.Creating, labels := none,
          operation := some { operation := PoolOperation.Create, result := some true } }
      = { node := "n0", id := "p0", disks := ["aio:///dev/null"],
          status := SpecStatus.Created PoolStatus.Online, labels := none,
          operation := none } := by
  exact (poolspec_commit_op_spec
    { node := "n0", id := "p0", disks := ["aio:///dev/null"],
      status := SpecStatus.Creating, labels := none,
      operation := some { operation := PoolOperation.Create, result := some true } }
    (some true)).1 rfl

/-! ## C1 — Conditional store writes under the lease lock -/

/-- C1: with an active lease-lock pair, `put_kv`, `delete_kv` and `put_obj`
run as transactions guarded by `lease(lock_key) == lease_id`: when the
compare fails the call returns `StoreError::FailedLock` and performs no
write; when it succeeds the write is applied.  With no pair active the
write is performed unconditionally. -/
theorem etcd_conditional_writes (s : EtcdState) (lease_id : Int)
    (lock_key key value : String) :
    (s.leaseOf lock_key ≠ some lease_id →
        put_kv s (.ok (some (lease_id, lock_key))) key value = .error .failedLock ∧
        delete_kv s (.ok (some (lease_id, lock_key))) key = .error .failedLock ∧
        put_obj s (.ok (some (lease_id, lock_key))) key value = .error .failedLock) ∧
    (s.leaseOf lock_key = some lease_id →
        put_kv s (.ok (some (lease_id, lock_key))) key value = .ok (s.putKey key value) ∧
        delete_kv s (.ok (some (lease_id, lock_key))) key = .ok (s.deleteKey key) ∧
        put_obj s (.ok (some (lease_id, lock_key))) key value = .ok (s.putKey key value)) ∧
    (put_kv s (.ok none) key value = .ok (s.putKey key value) ∧
        delete_kv s (.ok none) key = .ok (s.deleteKey key) ∧
        put_obj s (.ok none) key value = .ok (s.putKey key value)) := by
  refine ⟨fun h => ?_, fun h => ?_, ?_⟩
  · simp [put_kv, delete_kv, put_obj, h]
  · simp [put_kv, delete_kv, put_obj, h]
  · simp [put_kv, delete_kv, put_obj]

/-- Witness for `etcd_conditional_writes`: a concrete store whose lock key
holds a different lease rejects the write with `FailedLock`, and the same
store with the matching lease id accepts it. -/
theorem etcd_conditional_writes_witness :
    (put_kv { kvs := [], leases := [("lock", 7)] } (.ok (some (9, "lock"))) "k" "v"
        = .error .failedLock) ∧
    (put_kv { kvs := [], leases := [("lock", 7)] } (.ok (some (7, "lock"))) "k" "v"
        = .ok (EtcdState.putKey { kvs := [], leases := [("lock", 7)] } "k" "v")) := by
  constructor
  · exact ((etcd_conditional_writes { kvs := [], leases := [("lock", 7)] } 9
      "lock" "k" "v").1 (by decide)).1
  · exact ((etcd_conditional_writes { kvs := [], leases := [("lock", 7)] } 7
      "lock" "k" "v").2.1 (by decide)).1

/-! ## C4 — Faulted-children remover -/

/-- C4: the faulted-children remover issues removals only when the observed
nexus is `Degraded` with more than one child; under that precondition every
`Faulted` observed child is removed, and every removal it issues targets a
faulted child with the destroy flag set. -/
theorem faulted_children_remover_spec (st : NexusState) :
    (faulted_children_remover st ≠ [] →
        st.status = NexusStatus.Degraded ∧ st.children.length > 1) ∧
    (st.status = NexusStatus.Degraded → st.children.length > 1 →
        (∀ c ∈ st.children, c.state.faulted = true →
            ({ uri := c.uri, destroy := true } : RemoveCall) ∈
              faulted_children_remover st) ∧
        (∀ r ∈ faulted_children_remover st,
            r.destroy = true ∧
            ∃ c ∈ st.children, c.state.faulted = true ∧ c.uri = r.uri)) := by
  constructor
  · intro h
    by_cases hc : st.status = NexusStatus.Degraded ∧ st.children.length > 1
    · exact hc
    · exact absurd (by simp [faulted_children_remover, hc]) h
  · intro h1 h2
    constructor
    · intro c hc hf
      simp only [faulted_children_remover, h1, h2, and_true, if_pos, List.mem_map,
        List.mem_filter]
      exact ⟨c, ⟨hc, hf⟩, rfl⟩
    · intro r hr
      simp only [faulted_children_remover, h1, h2, and_true, if_pos, List.mem_map,
        List.mem_filter] at hr
      obtain ⟨c, ⟨hc, hf⟩, hr⟩ := hr
      exact ⟨by rw [← hr], c, hc, hf, by rw [← hr]⟩

/-- Witness for `faulted_children_remover_spec`: a degraded nexus with a
faulted child and an online child has the faulted child removed with the
destroy flag set. -/
theorem faulted_children_remover_spec_witness :
    ({ uri := "u1", destroy := true } : RemoveCall) ∈
      faulted_children_remover
        { status := NexusStatus.Degraded,
          children := [{ uri := "u1", state := ChildState.Faulted, rebuild_progress := none },
                       { uri := "u2", state := ChildState.Online, rebuild_progress := none }] } := by
  exact ((faulted_children_remover_spec
    { status := NexusStatus.Degraded,
      children := [{ uri := "u1", state := ChildState.Faulted, rebuild_progress := none },
                   { uri := "u2", state := ChildState.Online, rebuild_progress := none }] }).2
    rfl (by decide)).1
    { uri := "u1", state := ChildState.Faulted, rebuild_progress := none }
    (by decide) rfl

/-! ## C5 — Unknown-children remover -/

/-- C5: every observed child whose uri appears among no spec child's uri is
removed by the unknown-children remover with the destroy flag cleared, and
every removal it issues has the destroy flag cleared and targets such an
unknown observed child. -/
theorem unknown_children_remover_spec (spec_children : List NexusChild)
    (st : NexusState) :
    (∀ c ∈ st.children, (∀ sc ∈ spec_children, sc.uri ≠ c.uri) →
        ({ uri := c.uri, destroy := false } : RemoveCall) ∈
          unknown_children_remover spec_children st) ∧
    (∀ r ∈ unknown_children_remover spec_children st,
        r.destroy = false ∧
        ∃ c ∈ st.children, c.uri = r.uri ∧ ∀ sc ∈ spec_children, sc.uri ≠ c.uri) := by
  constructor
  · intro c hc hu
    simp only [unknown_children_remover, List.mem_map, List.mem_filter]
    refine ⟨c, ⟨hc, ?_⟩, rfl⟩
    simp only [Bool.not_eq_true', List.any_eq_false, beq_iff_eq]
    intro sc hsc
    exact hu sc hsc
  · intro r hr
    simp only [unknown_children_remover, List.mem_map, List.mem_filter] at hr
    obtain ⟨c, ⟨hc, hu⟩, hr⟩ := hr
    simp only [Bool.not_eq_true', List.any_eq_false, beq_iff_eq] at hu
    exact ⟨by rw [← hr], c, hc, by rw [← hr], hu⟩

/-- Witness for `unknown_children_remover_spec`: an observed child whose uri
is not among the spec children is removed without destroying its backing
storage. -/
theorem unknown_children_remover_spec_witness :
    ({ uri := "unknown-uri", destroy := false } : RemoveCall) ∈
      unknown_children_remover [NexusChild.Replica "r1" "spec-uri"]
        { status := NexusStatus.Online,
          children := [{ uri := "unknown-uri", state := ChildState.Online,
                         rebuild_progress := none }] } := by
  exact (unknown_children_remover_spec [NexusChild.Replica "r1" "spec-uri"]
    { status := NexusStatus.Online,
      children := [{ uri := "unknown-uri", state := ChildState.Online,
                     rebuild_progress := none }] }).1
    { uri := "unknown-uri", state := ChildState.Online, rebuild_progress := none }
    (by decide) (by decide)

/-! ## C2 — Scheduler verdict: One on unclean shutdown, All otherwise -/

/-- C2: when the persisted nexus-info exists with `clean_shutdown = false`
the scheduler returns the `One` verdict, under which the nexus is brought up
with at most one child (the recreate step selects at most the first
replica); when `clean_shutdown = true` or no nexus-info exists it returns
the `All` verdict carrying every filtered candidate. -/
theorem scheduler_one_or_all (info : NexusInfo) (cands : List ChildItem)
    (reps : List NexusChild) :
    (info.clean_shutdown = false →
        get_healthy_children (some info) cands =
          HealthyChildItems.One (some info) cands ∧
        (select_children (get_healthy_children (some info) cands) reps).length ≤ 1) ∧
    (info.clean_shutdown = true →
        get_healthy_children (some info) cands =
          HealthyChildItems.All (some info) cands) ∧
    get_healthy_children none cands = HealthyChildItems.All none cands := by
  refine ⟨fun h => ⟨?_, ?_⟩, fun h => ?_, ?_⟩
  · simp [get_healthy_children, h]
  · simp only [get_healthy_children, h, Bool.not_false, if_pos]
    cases reps <;> simp [select_children]
  · simp [get_healthy_children, h]
  · simp [get_healthy_children]

/-- Witness for `scheduler_one_or_all`: a nexus-info with
`clean_shutdown = false` and two candidates yields the `One` verdict and a
selection of at most one child. -/
theorem scheduler_one_or_all_witness :
    get_healthy_children (some { clean_shutdown := false, children := [] })
        [{ uuid := "r1" }, { uuid := "r2" }] =
      HealthyChildItems.One (some { clean_shutdown := false, children := [] })
        [{ uuid := "r1" }, { uuid := "r2" }] ∧
    (select_children
        (get_healthy_children (some { clean_shutdown := false, children := [] })
          [{ uuid := "r1" }, { uuid := "r2" }])
        [NexusChild.Replica "r1" "u1", NexusChild.Replica "r2" "u2"]).length ≤ 1 := by
  exact (scheduler_one_or_all { clean_shutdown := false, children := [] }
    [{ uuid := "r1" }, { uuid := "r2" }]
    [NexusChild.Replica "r1" "u1", NexusChild.Replica "r2" "u2"]).1 rfl

/-! ## C3 — Missing-nexus recreate -/

/-- C3: the recreate step skips when the nexus is observed, returns without
creating when the owning node is unknown or not online, builds the
`CreateNexus` request with exactly the first accessible candidate under a
`One` verdict and with all accessible candidates under an `All` verdict,
and gives up without issuing a create when the selected child list is empty
and the nexus-info reports no healthy replicas. -/
theorem missing_nexus_recreate_spec (observed : Bool) (node : Option NodeStatus)
    (children : HealthyChildItems) (access : ChildItem → Option String) :
    (observed = true →
        missing_nexus_recreate observed node children access =
          RecreateAction.nexusPresent) ∧
    (observed = false → (∀ st, node = some st → st.is_online = false) →
        missing_nexus_recreate observed node children access =
          RecreateAction.nodeNotOnline) ∧
    (observed = false → node = some NodeStatus.Online →
        (∀ info cands c rest, children = HealthyChildItems.One info cands →
            accessible_replicas access cands = c :: rest →
            missing_nexus_recreate observed node children access =
              RecreateAction.createIssued [c]) ∧
        (∀ info cands c rest, children = HealthyChildItems.All info cands →
            accessible_replicas access cands = c :: rest →
            missing_nexus_recreate observed node children access =
              RecreateAction.createIssued (c :: rest)) ∧
        (∀ info, children.nexus_info = some info →
            select_children children
              (accessible_replicas access children.candidates) = [] →
            info.no_healthy_replicas = true →
            missing_nexus_recreate observed node children access =
              RecreateAction.noHealthyReplicas)) := by
  refine ⟨fun h => ?_, fun h hn => ?_, fun h hn => ⟨?_, ?_, ?_⟩⟩
  · simp [missing_nexus_recreate, h]
  · subst h
    cases node with
    | none => simp [missing_nexus_recreate]
    | some st => simp [missing_nexus_recreate, hn st rfl]
  · intro info cands c rest hch hacc
    subst h; subst hn; subst hch
    simp [missing_nexus_recreate, HealthyChildItems.candidates, hacc,
      select_children, NodeStatus.is_online]
  · intro info cands c rest hch hacc
    subst h; subst hn; subst hch
    simp [missing_nexus_recreate, HealthyChildItems.candidates, hacc,
      select_children, NodeStatus.is_online]
  · intro info hinfo hsel hnh
    subst h; subst hn
    cases children with
    | One i cs =>
        simp only [HealthyChildItems.nexus_info, Option.some.injEq] at hinfo
        subst hinfo
        simp [missing_nexus_recreate, NodeStatus.is_online,
          HealthyChildItems.candidates] at hsel ⊢
        simp [hsel, hnh, HealthyChildItems.nexus_info]
    | All i cs =>
        simp only [HealthyChildItems.nexus_info, Option.some.injEq] at hinfo
        subst hinfo
        simp [missing_nexus_recreate, NodeStatus.is_online,
          HealthyChildItems.candidates] at hsel ⊢
        simp [hsel, hnh, HealthyChildItems.nexus_info]

/-- Witness for `missing_nexus_recreate_spec`: with the nexus absent, the
node online and a `One` verdict over two accessible candidates, the create
request carries exactly the first one. -/
theorem missing_nexus_recreate_spec_witness :
    missing_nexus_recreate false (some NodeStatus.Online)
        (HealthyChildItems.One none [{ uuid := "r1" }, { uuid := "r2" }])
        (fun item => some item.uuid) =
      RecreateAction.createIssued [NexusChild.Replica "r1" "r1"] := by
  exact ((missing_nexus_recreate_spec false (some NodeStatus.Online)
    (HealthyChildItems.One none [{ uuid := "r1" }, { uuid := "r2" }])
    (fun item => some item.uuid)).2.2 rfl rfl).1 none
    [{ uuid := "r1" }, { uuid := "r2" }]
    (NexusChild.Replica "r1" "r1") [NexusChild.Replica "r2" "r2"] rfl (by decide)

/-! ## C8 — The watch stream terminates on Delete -/

/-- Helper: the inner event loop forwards sequences in which nothing follows
a Delete, and when it signals continuation it has forwarded no Delete. -/
theorem processEvents_deleteTerminal (evs : List RawEvent) :
    deleteTerminal (processEvents evs).1 = true ∧
    ((processEvents evs).2 = true → SentItem.delete ∉ (processEvents evs).1) := by
  induction evs with
  | nil => simp [processEvents, deleteTerminal]
  | cons e rest ih =>
      match e with
      | .put none => simpa [processEvents] using ih
      | .put (some (k, some v)) =>
          simp only [processEvents, deleteTerminal]
          exact ⟨ih.1, fun h2 => by simp [ih.2 h2]⟩
      | .put (some (k, none)) =>
          simp only [processEvents, deleteTerminal]
          exact ⟨ih.1, fun h2 => by simp [ih.2 h2]⟩
      | .delete => simp [processEvents, deleteTerminal]

/-- Helper: prepending Delete-free items preserves `deleteTerminal`. -/
theorem deleteTerminal_append (a b : List SentItem)
    (ha : SentItem.delete ∉ a) (hb : deleteTerminal b = true) :
    deleteTerminal (a ++ b) = true := by
  induction a with
  | nil => simpa using hb
  | cons x t ih =>
      have hx : x ≠ SentItem.delete := fun h => ha (by simp [h])
      have ht : SentItem.delete ∉ t := fun h => ha (by simp [h])
      match x with
      | .putOk k v => simpa [deleteTerminal] using ih ht
      | .putErr => simpa [deleteTerminal] using ih ht
      | .delete => exact absurd rfl hx

/-- Helper: every sequence the watcher forwards satisfies
`deleteTerminal`. -/
theorem watchRun_deleteTerminal (msgs : List StreamMsg) :
    deleteTerminal (watchRun msgs) = true := by
  induction msgs with
  | nil => simp [watchRun, deleteTerminal]
  | cons m rest ih =>
      match m with
      | .msgErr => simp [watchRun, deleteTerminal]
      | .cancelled => simp [watchRun, deleteTerminal]
      | .response evs =>
          simp only [watchRun]
          by_cases h2 : (processEvents evs).2 = true
          · simp only [h2, if_true]
            exact deleteTerminal_append _ _
              ((processEvents_deleteTerminal evs).2 h2) ih
          · simp only [Bool.not_eq_true] at h2
            simp only [h2, Bool.false_eq_true, if_false]
            exact (processEvents_deleteTerminal evs).1

/-- Helper: a `deleteTerminal` list has nothing after any `delete`. -/
theorem deleteTerminal_no_suffix (l₁ l₂ : List SentItem)
    (h : deleteTerminal (l₁ ++ SentItem.delete :: l₂) = true) : l₂ = [] := by
  induction l₁ with
  | nil =>
      simp only [List.nil_append, deleteTerminal, List.isEmpty_iff] at h
      exact h
  | cons x t ih =>
      match x with
      | .putOk k v => exact ih (by simpa [deleteTerminal] using h)
      | .putErr => exact ih (by simpa [deleteTerminal] using h)
      | .delete =>
          simp only [List.cons_append, deleteTerminal, List.isEmpty_iff] at h
          exact absurd h (by simp)

/-- C8: once the watcher forwards `WatchEvent::Delete` to the subscriber it
terminates — in every sequence of items it delivers, nothing follows a
Delete (so at most one Delete is delivered, as the final item). -/
theorem watch_terminates_on_delete (msgs : List StreamMsg)
    (l₁ l₂ : List SentItem) (h : watchRun msgs = l₁ ++ SentItem.delete :: l₂) :
    l₂ = [] := by
  apply deleteTerminal_no_suffix l₁ l₂
  rw [← h]
  exact watchRun_deleteTerminal msgs

/-- Witness for `watch_terminates_on_delete`: a concrete stream whose first
response carries a Put, a Delete, and a further Put forwards exactly the Put
and the Delete, and nothing after the Delete. -/
theorem watch_terminates_on_delete_witness :
    watchRun [StreamMsg.response
        [RawEvent.put (some ("k", some "v")), RawEvent.delete,
         RawEvent.put (some ("x", some "y"))],
      StreamMsg.response [RawEvent.put (some ("a", some "b"))]] =
      [SentItem.putOk "k" "v"] ++ SentItem.delete :: [] ∧
    ([] : List SentItem) = [] := by
  constructor
  · decide
  · exact watch_terminates_on_delete
      [StreamMsg.response
          [RawEvent.put (some ("k", some "v")), RawEvent.delete,
           RawEvent.put (some ("x", some "y"))],
        StreamMsg.response [RawEvent.put (some ("a", some "b"))]]
      [SentItem.putOk "k" "v"] [] (by decide)

/-! ## C9 — Channel parsing panics without a separator -/

/-- Helper: a list free of `'/'` is its own `'/'`-free prefix. -/
theorem takeWhile_eq_self_of_no_slash (s : List Char) (h : '/' ∉ s) :
    s.takeWhile (fun c => c != '/') = s := by
  induction s with
  | nil => rfl
  | cons c t ih =>
      have hc : c ≠ '/' := fun hc => h (by simp [hc])
      have ht : '/' ∉ t := fun ht => h (by simp [ht])
      simp [List.takeWhile_cons, hc, ih ht]

/-- Helper: with a `'/'` present, the `'/'`-free prefix is strictly
shorter. -/
theorem takeWhile_length_lt_of_slash (s : List Char) (h : '/' ∈ s) :
    (s.takeWhile (fun c => c != '/')).length < s.length := by
  induction s with
  | nil => cases h
  | cons c t ih =>
      by_cases hc : c = '/'
      · subst hc
        simp [List.takeWhile_cons]
      · have ht : '/' ∈ t := by
          cases h with
          | head => exact absurd rfl hc
          | tail _ h => exact h
        have hbc : (c != '/') = true := by simp [bne_iff_ne, hc]
        simp only [List.takeWhile_cons, hbc, if_true, List.length_cons]
        have hih := ih ht
        omega

/-- C9: `Channel::from_str` panics (out-of-bounds string slice) on every
input containing no `'/'` separator, and returns without panicking on every
input containing a `'/'`. -/
theorem channel_from_str_panics_without_slash {α : Type}
    (parseChannelVs : List Char → Option α) (source : List Char) :
    ('/' ∉ source → channel_from_str parseChannelVs source = ParseOutcome.panicked) ∧
    ('/' ∈ source → channel_from_str parseChannelVs source ≠ ParseOutcome.panicked) := by
  constructor
  · intro h
    simp only [channel_from_str, takeWhile_eq_self_of_no_slash source h]
    simp
  · intro h
    have hlt := takeWhile_length_lt_of_slash source h
    simp only [channel_from_str]
    rw [if_pos (by omega)]
    cases parseChannelVs
        (source.drop ((source.takeWhile (fun c => c != '/')).length + 1)) <;> simp

/-- Witness for `channel_from_str_panics_without_slash`: parsing the
separator-free input "v0" panics, while "v0/" does not. -/
theorem channel_from_str_panics_without_slash_witness :
    channel_from_str (fun _ => (none : Option Nat)) ['v', '0'] =
      ParseOutcome.panicked ∧
    channel_from_str (fun _ => (none : Option Nat)) ['v', '0', '/'] ≠
      ParseOutcome.panicked := by
  constructor
  · exact (channel_from_str_panics_without_slash
      (fun _ => (none : Option Nat)) ['v', '0']).1 (by decide)
  · exact (channel_from_str_panics_without_slash
      (fun _ => (none : Option Nat)) ['v', '0', '/']).2 (by decide)
